import Mathlib

/-!
Verification of the EMI (equated monthly installment) calculator exposed by
`calculate_emi_api` in `src/UI/app.py` (lines 477-498) of the banking
management system.  The endpoint reads three query parameters (`principal`,
`rate`, `tenure`, each defaulting to `0` when absent), parses them with
Python's `float`/`int`, validates strict positivity, computes

    monthly_rate = rate / (12 * 100)
    emi = principal * monthly_rate * (1 + monthly_rate) ** tenure
            / ((1 + monthly_rate) ** tenure - 1)
    total_amount = emi * tenure
    total_interest = total_amount - principal

and returns each value rounded to 2 decimal places, with
`except (ValueError, TypeError)` mapping parse failures to an HTTP 400 error.

The embedding idealises IEEE-754 doubles as exact rationals, but keeps the
non-finite values `nan`, `inf`, `-inf` (reachable through the parser, since
Python's `float` accepts "nan" and "inf"), Python's exception behaviour for
division by a zero float, and Python's comparison semantics for `x <= 0`.
-/

/-- Idealised Python float: exact rational for finite values, plus the three
non-finite values.  Binary rounding of doubles is not modelled. -/
inductive PyFloat where
  | fin (q : ℚ)
  | inf
  | ninf
  | nan
deriving DecidableEq

/-- The Python exceptions relevant to `calculate_emi_api`. -/
inductive PyExc where
  | valueError
  | typeError
  | zeroDivisionError
  | overflowError
deriving DecidableEq

/-- The `except (ValueError, TypeError)` clause of `calculate_emi_api`
(src/UI/app.py line 497): which exceptions the handler catches. -/
def handled : PyExc → Bool
  | .valueError => true
  | .typeError => true
  | .zeroDivisionError => false
  | .overflowError => false

/-- What the endpoint sends back: a 200 JSON body with the three numbers, a
JSON error body with an HTTP status, or an exception escaping the handler
(Flask would turn that into a 500 with no JSON payload). -/
inductive Response where
  | ok (emi total_amount total_interest : PyFloat)
  | error (msg : String) (status : ℕ)
  | uncaught (e : PyExc)
deriving DecidableEq

/-- Python float `<= 0` comparison: `nan <= 0` and `inf <= 0` are `False`. -/
def pyLeZero : PyFloat → Bool
  | .fin q => decide (q ≤ 0)
  | .inf => false
  | .ninf => true
  | .nan => false

/-- Python float addition on the idealised domain. -/
def pyAdd : PyFloat → PyFloat → PyFloat
  | .nan, _ => .nan
  | _, .nan => .nan
  | .fin a, .fin b => .fin (a + b)
  | .fin _, .inf => .inf
  | .fin _, .ninf => .ninf
  | .inf, .fin _ => .inf
  | .ninf, .fin _ => .ninf
  | .inf, .inf => .inf
  | .ninf, .ninf => .ninf
  | .inf, .ninf => .nan
  | .ninf, .inf => .nan

/-- Python float negation. -/
def pyNeg : PyFloat → PyFloat
  | .fin a => .fin (-a)
  | .inf => .ninf
  | .ninf => .inf
  | .nan => .nan

/-- Python float subtraction. -/
def pySub (a b : PyFloat) : PyFloat := pyAdd a (pyNeg b)

/-- Python float multiplication; `inf * 0.0` is `nan`. -/
def pyMul : PyFloat → PyFloat → PyFloat
  | .nan, _ => .nan
  | _, .nan => .nan
  | .fin a, .fin b => .fin (a * b)
  | .fin a, .inf => if 0 < a then .inf else if a < 0 then .ninf else .nan
  | .fin a, .ninf => if 0 < a then .ninf else if a < 0 then .inf else .nan
  | .inf, .fin b => if 0 < b then .inf else if b < 0 then .ninf else .nan
  | .ninf, .fin b => if 0 < b then .ninf else if b < 0 then .inf else .nan
  | .inf, .inf => .inf
  | .inf, .ninf => .ninf
  | .ninf, .inf => .ninf
  | .ninf, .ninf => .inf

/-- Value of Python float division when the divisor is not the zero float. -/
def pyDivAux : PyFloat → PyFloat → PyFloat
  | .nan, _ => .nan
  | _, .nan => .nan
  | .fin a, .fin b => .fin (a / b)
  | .fin _, .inf => .fin 0
  | .fin _, .ninf => .fin 0
  | .inf, .fin b => if 0 < b then .inf else .ninf
  | .ninf, .fin b => if 0 < b then .ninf else .inf
  | .inf, .inf => .nan
  | .inf, .ninf => .nan
  | .ninf, .inf => .nan
  | .ninf, .ninf => .nan

/-- Python float division: any dividend divided by the float `0.0` raises
`ZeroDivisionError` (unlike IEEE-754). -/
def pyDiv (a b : PyFloat) : Except PyExc PyFloat :=
  if b = .fin 0 then .error .zeroDivisionError else .ok (pyDivAux a b)

/-- Python `**` with float base and non-negative int exponent; any float to
the power `0` is `1.0`, including `nan ** 0` and `inf ** 0`. -/
def pyPow (a : PyFloat) (m : ℕ) : PyFloat :=
  if m = 0 then .fin 1 else
    match a with
    | .fin q => .fin (q ^ m)
    | .inf => .inf
    | .ninf => if m % 2 = 0 then .inf else .ninf
    | .nan => .nan

/-- Round-half-even to an integer, the rule CPython's `round` applies to the
decimal expansion of its argument. -/
def roundHalfEven (x : ℚ) : ℤ :=
  let f := ⌊x⌋
  let r := x - f
  if r < 1 / 2 then f
  else if r = 1 / 2 then (if f % 2 = 0 then f else f + 1)
  else f + 1

/-- Evaluation of `round(x, 2)` on an exact value: round-half-even at the second decimal. -/
def round2 (x : ℚ) : ℚ := (roundHalfEven (x * 100) : ℚ) / 100

/-- Python `round(x, 2)` on a float: non-finite values are returned
unchanged, finite values are rounded to 2 decimal places. -/
def pyRound2 : PyFloat → PyFloat
  | .fin q => .fin (round2 q)
  | .inf => .inf
  | .ninf => .ninf
  | .nan => .nan

/-- Numeric value of a list of decimal digit characters. -/
def digitsToNat (l : List Char) : ℕ :=
  l.foldl (fun a c => 10 * a + (c.toNat - 48)) 0

/-- Strip an optional leading sign; returns whether it was `-`. -/
def parseSign : List Char → Bool × List Char
  | '+' :: cs => (false, cs)
  | '-' :: cs => (true, cs)
  | cs => (false, cs)

/-- Parse an optional exponent suffix (`e`, optional sign, digits) applied to
mantissa `m`; input is already lowercased. -/
def parseExp (m : ℚ) : List Char → Option ℚ
  | [] => some m
  | 'e' :: rest =>
      let (neg, rest2) := parseSign rest
      let ds := rest2.takeWhile Char.isDigit
      let rest3 := rest2.dropWhile Char.isDigit
      if ds.isEmpty || !rest3.isEmpty then none
      else some (if neg then m / 10 ^ digitsToNat ds else m * 10 ^ digitsToNat ds)
  | _ => none

/-- Parse an unsigned decimal literal (`digits`, `digits.digits`, `.digits`,
`digits.`, each with an optional exponent), as accepted by Python's
`float`. -/
def parseDec (cs : List Char) : Option ℚ :=
  let ip := cs.takeWhile Char.isDigit
  let r1 := cs.dropWhile Char.isDigit
  match r1 with
  | '.' :: r2 =>
      let fp := r2.takeWhile Char.isDigit
      let r3 := r2.dropWhile Char.isDigit
      if ip.isEmpty && fp.isEmpty then none
      else parseExp ((digitsToNat ip : ℚ) + (digitsToNat fp : ℚ) / 10 ^ fp.length) r3
  | _ => if ip.isEmpty then none else parseExp (digitsToNat ip : ℚ) r1

/-- Python's `float(s)` on a string: optional sign, then `nan`, `inf`,
`infinity` (case-insensitive) or a decimal literal.  (Surrounding whitespace
and `_` digit separators, which CPython also accepts, are not modelled; no
claim depends on them.) -/
def pyFloat (s : String) : Option PyFloat :=
  let cs := s.toList.map Char.toLower
  let (neg, rest) := parseSign cs
  if rest = ['n', 'a', 'n'] then some .nan
  else if rest = ['i', 'n', 'f'] ∨ rest = ['i', 'n', 'f', 'i', 'n', 'i', 't', 'y'] then
    some (if neg then .ninf else .inf)
  else
    match parseDec rest with
    | some q => some (.fin (if neg then -q else q))
    | none => none

/-- Python's `int(s)` on a string: optional sign then decimal digits only
(`int("3.5")` raises `ValueError`). -/
def pyInt (s : String) : Option ℤ :=
  let (neg, rest) := parseSign s.toList
  if rest.isEmpty || !rest.all Char.isDigit then none
  else some (if neg then -(digitsToNat rest : ℤ) else (digitsToNat rest : ℤ))

/-- The three query parameters of a request to `/api/calculate_emi`; `none`
means the parameter is absent from the query string. -/
structure Args where
  principal : Option String
  rate : Option String
  tenure : Option String

/-- Models `float(request.args.get(name, 0))`: an absent parameter defaults
to the integer `0`, so `float` yields `0.0`; an unparseable string raises
`ValueError`. -/
def getFloatArg : Option String → Except PyExc PyFloat
  | none => .ok (.fin 0)
  | some s =>
      match pyFloat s with
      | some v => .ok v
      | none => .error .valueError

/-- Models the tenure extraction `int(request.args.get(..., 0))`. -/
def getIntArg : Option String → Except PyExc ℤ
  | none => .ok 0
  | some s =>
      match pyInt s with
      | some v => .ok v
      | none => .error .valueError

/-- Parameter extraction of `calculate_emi_api` (src/UI/app.py lines
480-482), in source order: principal, then rate, then tenure. -/
def emiParse (args : Args) : Except PyExc (PyFloat × PyFloat × ℤ) :=
  match getFloatArg args.principal with
  | .error e => .error e
  | .ok p =>
      match getFloatArg args.rate with
      | .error e => .error e
      | .ok r =>
          match getIntArg args.tenure with
          | .error e => .error e
          | .ok n => .ok (p, r, n)

/-- Validation and computation of `calculate_emi_api` (src/UI/app.py lines
484-496) on the parsed values: reject non-positive parameters with the
`Invalid parameters` / 400 response, otherwise evaluate the EMI formula. -/
def emiCompute (p r : PyFloat) (n : ℤ) : Except PyExc Response :=
  if pyLeZero p || pyLeZero r || decide (n ≤ 0) then
    .ok (Response.error "Invalid parameters" 400)
  else
    match pyDiv r (.fin (12 * 100)) with
    | .error e => .error e
    | .ok monthly_rate =>
        let factor := pyPow (pyAdd (.fin 1) monthly_rate) n.toNat
        match pyDiv (pyMul (pyMul p monthly_rate) factor) (pySub factor (.fin 1)) with
        | .error e => .error e
        | .ok emi =>
            let total_amount := pyMul emi (.fin (n : ℚ))
            let total_interest := pySub total_amount p
            .ok (Response.ok (pyRound2 emi) (pyRound2 total_amount) (pyRound2 total_interest))

/-- The `try ... except (ValueError, TypeError)` wrapper (src/UI/app.py
lines 479, 497-498): caught exceptions become the `Invalid input parameters`
/ 400 response; any other exception escapes the handler. -/
def runHandler : Except PyExc Response → Response
  | .ok resp => resp
  | .error e => if handled e then Response.error "Invalid input parameters" 400 else Response.uncaught e

/-- The full `/api/calculate_emi` endpoint (src/UI/app.py lines 477-498). -/
def calculate_emi_api (args : Args) : Response :=
  runHandler
    (match emiParse args with
     | .error e => .error e
     | .ok pr => emiCompute pr.1 pr.2.1 pr.2.2)

/-- Source line 487: `monthly_rate = rate / (12 * 100)`. -/
def monthly_rate (rate : ℚ) : ℚ := rate / (12 * 100)

/-- The pre-rounding EMI of src/UI/app.py line 488, on exact rationals. -/
def emi_raw (principal rate : ℚ) (tenure : ℕ) : ℚ :=
  principal * monthly_rate rate * (1 + monthly_rate rate) ^ tenure /
    ((1 + monthly_rate rate) ^ tenure - 1)

/-- Source line 489: `total_amount = emi * tenure`, pre-rounding. -/
def total_amount_raw (principal rate : ℚ) (tenure : ℕ) : ℚ :=
  emi_raw principal rate tenure * tenure

/-- Source line 490: `total_interest = total_amount - principal`,
pre-rounding. -/
def total_interest_raw (principal rate : ℚ) (tenure : ℕ) : ℚ :=
  total_amount_raw principal rate tenure - principal

/-- The spec's algorithm, transcribed from its own words (section 4.1,
steps 1-6): monthly rate, amortization factor, emi, total amount, total
interest, each of the three results rounded independently to 2 decimals. -/
def computeEmi_spec (principal annualRatePercent : ℚ) (tenureMonths : ℕ) : ℚ × ℚ × ℚ :=
  let monthlyRate := annualRatePercent / (12 * 100)
  let factor := (1 + monthlyRate) ^ tenureMonths
  let emi := principal * monthlyRate * factor / (factor - 1)
  let totalAmount := emi * tenureMonths
  let totalInterest := totalAmount - principal
  (round2 emi, round2 totalAmount, round2 totalInterest)

/-! ### Basic evaluation lemmas for the idealised float operations -/

lemma pyPow_fin (q : ℚ) (m : ℕ) : pyPow (.fin q) m = .fin (q ^ m) := by
  cases m <;> simp [pyPow]

lemma pyDiv_fin (a : ℚ) {b : ℚ} (hb : b ≠ 0) :
    pyDiv (.fin a) (.fin b) = .ok (.fin (a / b)) := by
  unfold pyDiv
  rw [if_neg (by simp [hb])]
  rfl

lemma monthly_rate_pos {r : ℚ} (hr : 0 < r) : 0 < monthly_rate r := by
  unfold monthly_rate
  positivity

lemma one_lt_factor {r : ℚ} (hr : 0 < r) {n : ℕ} (hn : n ≠ 0) :
    1 < (1 + monthly_rate r) ^ n :=
  one_lt_pow₀ (by linarith [monthly_rate_pos hr]) hn

lemma emiGuard_false {p r : ℚ} (hp : 0 < p) (hr : 0 < r) {n : ℤ} (hn : 0 < n) :
    (pyLeZero (.fin p) || pyLeZero (.fin r) || decide (n ≤ 0)) = false := by
  simp only [pyLeZero, Bool.or_eq_false_iff, decide_eq_false_iff_not, not_le]
  exact ⟨⟨hp, hr⟩, hn⟩

/-- On finite positive inputs, the computation step of the endpoint returns
the rounded values of the exact formulas. -/
lemma emiCompute_fin_pos {p r : ℚ} {n : ℕ} (hp : 0 < p) (hr : 0 < r) (hn : 0 < n) :
    emiCompute (.fin p) (.fin r) (n : ℤ) =
      .ok (Response.ok (.fin (round2 (emi_raw p r n)))
                       (.fin (round2 (total_amount_raw p r n)))
                       (.fin (round2 (total_interest_raw p r n)))) := by
  have h1200 : (12 * 100 : ℚ) ≠ 0 := by norm_num
  have hfac : (1 : ℚ) < (1 + monthly_rate r) ^ n := one_lt_factor hr hn.ne'
  have hden : (1 + monthly_rate r) ^ n - 1 ≠ 0 := ne_of_gt (by linarith)
  have hden' : (1 + monthly_rate r) ^ n + -1 ≠ 0 := by
    rw [← sub_eq_add_neg]; exact hden
  have hnz : (0 : ℤ) < (n : ℤ) := by exact_mod_cast hn
  unfold emiCompute
  rw [emiGuard_false hp hr hnz, if_neg Bool.false_ne_true, pyDiv_fin r h1200]
  dsimp only
  rw [show monthly_rate r = r / (12 * 100) from rfl] at hfac hden hden'
  simp only [pyAdd, Int.toNat_natCast, pyPow_fin, pyMul, pySub, pyNeg,
    pyDiv_fin _ hden', pyRound2, Int.cast_natCast]
  unfold total_interest_raw total_amount_raw emi_raw monthly_rate
  ring_nf

/-- Unfolds the endpoint to the handler around the computation once the three
parameters parse. -/
lemma calculate_emi_api_eq {sp sr sn : String} {vp vr : PyFloat} {n : ℤ}
    (hp : pyFloat sp = some vp) (hr : pyFloat sr = some vr) (hn : pyInt sn = some n) :
    calculate_emi_api ⟨some sp, some sr, some sn⟩ = runHandler (emiCompute vp vr n) := by
  simp only [calculate_emi_api, emiParse, getFloatArg, getIntArg, hp, hr, hn]

/-- The endpoint on finite positive parsed inputs: 200 response carrying the
three rounded values of the exact formulas. -/
lemma api_fin_pos {sp sr sn : String} {p r : ℚ} {n : ℕ}
    (hp : pyFloat sp = some (.fin p)) (hr : pyFloat sr = some (.fin r))
    (hn : pyInt sn = some (n : ℤ))
    (hp0 : 0 < p) (hr0 : 0 < r) (hn0 : 0 < n) :
    calculate_emi_api ⟨some sp, some sr, some sn⟩ =
      Response.ok (.fin (round2 (emi_raw p r n)))
                  (.fin (round2 (total_amount_raw p r n)))
                  (.fin (round2 (total_interest_raw p r n))) := by
  rw [calculate_emi_api_eq hp hr hn, emiCompute_fin_pos hp0 hr0 hn0]
  rfl

/-- Rounding bracket, low half: if `m ≤ 100 x < m + 1/2` then `x` rounds to
`m/100`. -/
lemma round2_eq_of_lt {x : ℚ} {m : ℤ} (h1 : (m : ℚ) ≤ x * 100) (h2 : x * 100 < m + 1 / 2) :
    round2 x = (m : ℚ) / 100 := by
  have hf : ⌊x * 100⌋ = m := Int.floor_eq_iff.mpr ⟨h1, by linarith⟩
  unfold round2 roundHalfEven
  rw [hf, if_pos (by linarith)]

/-- Rounding bracket, high half: if `m - 1/2 < 100 x < m` then `x` rounds to
`m/100`. -/
lemma round2_eq_of_gt {x : ℚ} {m : ℤ} (h1 : (m : ℚ) - 1 / 2 < x * 100) (h2 : x * 100 < m) :
    round2 x = (m : ℚ) / 100 := by
  have hf : ⌊x * 100⌋ = m - 1 := by
    apply Int.floor_eq_iff.mpr
    constructor
    · push_cast; linarith
    · push_cast; linarith
  unfold round2 roundHalfEven
  rw [hf, if_neg (by push_cast; linarith), if_neg (by push_cast; linarith)]
  push_cast
  ring

lemma roundHalfEven_nonneg {x : ℚ} (hx : 0 ≤ x) : 0 ≤ roundHalfEven x := by
  have hf : (0 : ℤ) ≤ ⌊x⌋ := Int.le_floor.mpr (by exact_mod_cast hx)
  unfold roundHalfEven
  dsimp only
  split
  · exact hf
  · split
    · split
      · exact hf
      · omega
    · omega

lemma round2_nonneg {x : ℚ} (hx : 0 ≤ x) : 0 ≤ round2 x := by
  unfold round2
  have := roundHalfEven_nonneg (by linarith : (0:ℚ) ≤ x * 100)
  positivity

lemma emi_raw_pos {p r : ℚ} (hp : 0 < p) (hr : 0 < r) {n : ℕ} (hn : n ≠ 0) :
    0 < emi_raw p r n := by
  unfold emi_raw
  apply div_pos
  · have := monthly_rate_pos hr
    positivity
  · linarith [one_lt_factor hr hn]

/-! ### The annuity form of the EMI and monotonicity of the exact formulas -/

/-- Present-value annuity factor: `∑ k, (1+i)^-(k+1)`, the sum of the
discount factors of the `n` monthly payments. -/
def annuity (r : ℚ) (n : ℕ) : ℚ :=
  ∑ k in Finset.range n, ((1 + monthly_rate r)⁻¹) ^ (k + 1)

lemma one_plus_monthly_rate_pos {r : ℚ} (hr : 0 < r) : 0 < 1 + monthly_rate r := by
  linarith [monthly_rate_pos hr]

lemma annuity_pos {r : ℚ} (hr : 0 < r) {n : ℕ} (hn : n ≠ 0) : 0 < annuity r n := by
  have hx := one_plus_monthly_rate_pos hr
  unfold annuity
  apply Finset.sum_pos
  · intro k _
    positivity
  · exact Finset.nonempty_range_iff.mpr hn

/-- The EMI formula in annuity form: `emi = principal / annuity`. -/
lemma emi_raw_eq_div_annuity (p : ℚ) {r : ℚ} (hr : 0 < r) {n : ℕ} (hn : n ≠ 0) :
    emi_raw p r n = p / annuity r n := by
  have hi0 : 0 < monthly_rate r := monthly_rate_pos hr
  have hx0 : (0 : ℚ) < 1 + monthly_rate r := one_plus_monthly_rate_pos hr
  have hxne : (1 + monthly_rate r) ≠ 0 := ne_of_gt hx0
  have hfac : 1 < (1 + monthly_rate r) ^ n := one_lt_factor hr hn
  have hfne : (1 + monthly_rate r) ^ n - 1 ≠ 0 := ne_of_gt (by linarith)
  have hS : annuity r n ≠ 0 := ne_of_gt (annuity_pos hr hn)
  have hshift : annuity r n =
      (1 + monthly_rate r)⁻¹ * ∑ k in Finset.range n, ((1 + monthly_rate r)⁻¹) ^ k := by
    unfold annuity
    rw [Finset.mul_sum]
    exact Finset.sum_congr rfl fun k _ => pow_succ' _ _
  have hkey : monthly_rate r * annuity r n = 1 - ((1 + monthly_rate r)⁻¹) ^ n := by
    calc monthly_rate r * annuity r n
        = ((1 + monthly_rate r) - 1) *
            ((1 + monthly_rate r)⁻¹ * ∑ k in Finset.range n, ((1 + monthly_rate r)⁻¹) ^ k) := by
          rw [← hshift]; ring
      _ = ((1 + monthly_rate r) * (1 + monthly_rate r)⁻¹ - (1 + monthly_rate r)⁻¹) *
            ∑ k in Finset.range n, ((1 + monthly_rate r)⁻¹) ^ k := by ring
      _ = -((∑ k in Finset.range n, ((1 + monthly_rate r)⁻¹) ^ k) *
            ((1 + monthly_rate r)⁻¹ - 1)) := by
          rw [mul_inv_cancel₀ hxne]; ring
      _ = -(((1 + monthly_rate r)⁻¹) ^ n - 1) := by rw [geom_sum_mul]
      _ = 1 - ((1 + monthly_rate r)⁻¹) ^ n := by ring
  unfold emi_raw
  rw [div_eq_div_iff hfne hS]
  calc p * monthly_rate r * (1 + monthly_rate r) ^ n * annuity r n
      = p * (1 + monthly_rate r) ^ n * (monthly_rate r * annuity r n) := by ring
    _ = p * (1 + monthly_rate r) ^ n * (1 - ((1 + monthly_rate r)⁻¹) ^ n) := by rw [hkey]
    _ = p * (1 + monthly_rate r) ^ n -
          p * ((1 + monthly_rate r) ^ n * ((1 + monthly_rate r) ^ n)⁻¹) := by
        rw [inv_pow]; ring
    _ = p * ((1 + monthly_rate r) ^ n - 1) := by
        rw [mul_inv_cancel₀ (pow_ne_zero n hxne)]; ring

lemma annuity_lt_annuity_tenure {r : ℚ} (hr : 0 < r) {n1 n2 : ℕ} (h : n1 < n2) :
    annuity r n1 < annuity r n2 := by
  have hx := one_plus_monthly_rate_pos hr
  unfold annuity
  exact Finset.sum_lt_sum_of_subset (Finset.range_subset.mpr h.le)
    (Finset.mem_range.mpr h) Finset.not_mem_range_self (by positivity)
    (fun j _ _ => by positivity)

lemma annuity_anti_rate {r1 r2 : ℚ} (hr1 : 0 < r1) (h12 : r1 < r2) {n : ℕ} (hn : n ≠ 0) :
    annuity r2 n < annuity r1 n := by
  have hm : monthly_rate r1 < monthly_rate r2 := by
    unfold monthly_rate
    gcongr
  have hx1 : 0 < 1 + monthly_rate r1 := one_plus_monthly_rate_pos hr1
  have hx2 : 0 < 1 + monthly_rate r2 := one_plus_monthly_rate_pos (hr1.trans h12)
  have hinv : (1 + monthly_rate r2)⁻¹ < (1 + monthly_rate r1)⁻¹ := by
    gcongr
  unfold annuity
  apply Finset.sum_lt_sum_of_nonempty (Finset.nonempty_range_iff.mpr hn)
  intro k _
  exact pow_lt_pow_left₀ hinv (inv_pos.mpr hx2).le (Nat.succ_ne_zero k)

/-- Core inequality behind the growth of total interest in the tenure:
`n1 * annuity n2 < n2 * annuity n1`, stated over an abstract discount
factor `0 < q < 1`. -/
lemma ratio_sum_ineq {q : ℚ} (hq0 : 0 < q) (hq1 : q < 1) {n1 n2 : ℕ}
    (h1 : 1 ≤ n1) (h12 : n1 < n2) :
    (n1 : ℚ) * ∑ k in Finset.range n2, q ^ (k + 1) <
      (n2 : ℚ) * ∑ k in Finset.range n1, q ^ (k + 1) := by
  have hsplit : ∑ k in Finset.range n2, q ^ (k + 1)
      = (∑ k in Finset.range n1, q ^ (k + 1)) + ∑ k in Finset.Ico n1 n2, q ^ (k + 1) := by
    rw [Finset.range_eq_Ico]
    exact (Finset.sum_Ico_consecutive _ (Nat.zero_le n1) h12.le).symm
  have hT : ∑ k in Finset.Ico n1 n2, q ^ (k + 1) ≤ ((n2 - n1 : ℕ) : ℚ) * q ^ (n1 + 1) := by
    have h := Finset.sum_le_card_nsmul (Finset.Ico n1 n2) (fun k => q ^ (k + 1)) (q ^ (n1 + 1))
      (fun k hk => pow_le_pow_of_le_one hq0.le hq1.le (by
        have := (Finset.mem_Ico.mp hk).1
        omega))
    rwa [Nat.card_Ico, nsmul_eq_mul] at h
  have hS1 : (n1 : ℚ) * q ^ n1 ≤ ∑ k in Finset.range n1, q ^ (k + 1) := by
    have h := Finset.card_nsmul_le_sum (Finset.range n1) (fun k => q ^ (k + 1)) (q ^ n1)
      (fun k hk => pow_le_pow_of_le_one hq0.le hq1.le (by
        have := Finset.mem_range.mp hk
        omega))
    rwa [Finset.card_range, nsmul_eq_mul] at h
  have hstep : q ^ (n1 + 1) < q ^ n1 :=
    pow_lt_pow_right_of_lt_one₀ hq0 hq1 (Nat.lt_succ_self n1)
  have hA1 : (1 : ℚ) ≤ (n1 : ℚ) := by exact_mod_cast h1
  have hB1 : (1 : ℚ) ≤ ((n2 - n1 : ℕ) : ℚ) := by
    have h : 1 ≤ n2 - n1 := by omega
    exact_mod_cast h
  have hcast : ((n2 - n1 : ℕ) : ℚ) = (n2 : ℚ) - (n1 : ℚ) := by
    push_cast [Nat.cast_sub h12.le]
    ring
  calc (n1 : ℚ) * ∑ k in Finset.range n2, q ^ (k + 1)
      = (n1 : ℚ) * ∑ k in Finset.range n1, q ^ (k + 1)
          + (n1 : ℚ) * ∑ k in Finset.Ico n1 n2, q ^ (k + 1) := by rw [hsplit]; ring
    _ ≤ (n1 : ℚ) * ∑ k in Finset.range n1, q ^ (k + 1)
          + (n1 : ℚ) * (((n2 - n1 : ℕ) : ℚ) * q ^ (n1 + 1)) := by
        have h := mul_le_mul_of_nonneg_left hT (by linarith : (0 : ℚ) ≤ (n1 : ℚ))
        linarith
    _ < (n1 : ℚ) * ∑ k in Finset.range n1, q ^ (k + 1)
          + (n1 : ℚ) * (((n2 - n1 : ℕ) : ℚ) * q ^ n1) := by
        have h0 : (0 : ℚ) < (n1 : ℚ) * ((n2 - n1 : ℕ) : ℚ) := by nlinarith
        nlinarith
    _ = (n1 : ℚ) * ∑ k in Finset.range n1, q ^ (k + 1)
          + ((n2 - n1 : ℕ) : ℚ) * ((n1 : ℚ) * q ^ n1) := by ring
    _ ≤ (n1 : ℚ) * ∑ k in Finset.range n1, q ^ (k + 1)
          + ((n2 - n1 : ℕ) : ℚ) * ∑ k in Finset.range n1, q ^ (k + 1) := by
        have h := mul_le_mul_of_nonneg_left hS1 (by linarith : (0 : ℚ) ≤ ((n2 - n1 : ℕ) : ℚ))
        linarith
    _ = (n2 : ℚ) * ∑ k in Finset.range n1, q ^ (k + 1) := by rw [hcast]; ring

lemma total_interest_raw_eq (p : ℚ) {r : ℚ} (hr : 0 < r) {n : ℕ} (hn : n ≠ 0) :
    total_interest_raw p r n = p / annuity r n * n - p := by
  unfold total_interest_raw total_amount_raw
  rw [emi_raw_eq_div_annuity p hr hn]

/-! ### Claim theorems -/

/-- Claim C1: for every principal `p > 0`, annual rate `r > 0` and integer
tenure `n > 0` given as query strings, `calculate_emi_api` computes
`monthlyRate = r / (12 * 100)`, `factor = (1 + monthlyRate) ^ n`,
`emi = p * monthlyRate * factor / (factor - 1)`, `totalAmount = emi * n`,
`totalInterest = totalAmount - p`, and returns each of the three values
independently rounded to 2 decimal places — exactly the result of the
spec's algorithm `computeEmi_spec`. -/
theorem calculate_emi_api_follows_spec_formula {sp sr sn : String} {p r : ℚ} {n : ℕ}
    (hp : pyFloat sp = some (.fin p)) (hr : pyFloat sr = some (.fin r))
    (hn : pyInt sn = some (n : ℤ))
    (hp0 : 0 < p) (hr0 : 0 < r) (hn0 : 0 < n) :
    calculate_emi_api ⟨some sp, some sr, some sn⟩ =
      Response.ok (.fin (computeEmi_spec p r n).1)
                  (.fin (computeEmi_spec p r n).2.1)
                  (.fin (computeEmi_spec p r n).2.2) := by
  rw [api_fin_pos hp hr hn hp0 hr0 hn0]
  rfl

/-- Witness for C1 at `principal=50000`, `rate=12.5`, `tenure=24`. -/
theorem calculate_emi_api_follows_spec_formula_witness :
    calculate_emi_api ⟨some "50000", some "12.5", some "24"⟩ =
      Response.ok (.fin (computeEmi_spec 50000 (12 + 5 / 10 ^ 1) 24).1)
                  (.fin (computeEmi_spec 50000 (12 + 5 / 10 ^ 1) 24).2.1)
                  (.fin (computeEmi_spec 50000 (12 + 5 / 10 ^ 1) 24).2.2) :=
  calculate_emi_api_follows_spec_formula rfl rfl rfl (by norm_num) (by norm_num) (by norm_num)

/-- The exact response of the endpoint on `principal=50000`, `rate=12.5`,
`tenure=24`: emi 2365.37, total 56768.77, interest 6768.77. -/
lemma api_50000_12_5_24 :
    calculate_emi_api ⟨some "50000", some "12.5", some "24"⟩ =
      Response.ok (.fin (236537 / 100)) (.fin (5676877 / 100)) (.fin (676877 / 100)) := by
  rw [@api_fin_pos "50000" "12.5" "24" 50000 (12 + 5 / 10 ^ 1) 24 rfl rfl rfl
    (by norm_num) (by norm_num) (by norm_num)]
  have he : round2 (emi_raw 50000 (12 + 5 / 10 ^ 1) 24) = 236537 / 100 := by
    rw [round2_eq_of_gt (m := 236537)
      (by unfold emi_raw monthly_rate; norm_num)
      (by unfold emi_raw monthly_rate; norm_num)]
    norm_num
  have hta : round2 (total_amount_raw 50000 (12 + 5 / 10 ^ 1) 24) = 5676877 / 100 := by
    rw [round2_eq_of_gt (m := 5676877)
      (by unfold total_amount_raw emi_raw monthly_rate; norm_num)
      (by unfold total_amount_raw emi_raw monthly_rate; norm_num)]
    norm_num
  have hti : round2 (total_interest_raw 50000 (12 + 5 / 10 ^ 1) 24) = 676877 / 100 := by
    rw [round2_eq_of_gt (m := 676877)
      (by unfold total_interest_raw total_amount_raw emi_raw monthly_rate; norm_num)
      (by unfold total_interest_raw total_amount_raw emi_raw monthly_rate; norm_num)]
    norm_num
  rw [he, hta, hti]

/-- Counterexample for claim C2: on `principal=50000`, `rate=12.5`,
`tenure=24` the endpoint returns emi 2365.37, total 56768.77, interest
6768.77, and none of them is within the claimed tolerance of the demo
fixture values 2347.50 / 56340.00 / 6340.00. -/
theorem emi_50000_12_5_24_not_fixture :
    calculate_emi_api ⟨some "50000", some "12.5", some "24"⟩ =
      Response.ok (.fin (236537 / 100)) (.fin (5676877 / 100)) (.fin (676877 / 100)) ∧
    ¬(|(236537 / 100 : ℚ) - 23475 / 10| ≤ 1 / 100) ∧
    ¬(|(5676877 / 100 : ℚ) - 56340| ≤ 1 / 2) ∧
    ¬(|(676877 / 100 : ℚ) - 6340| ≤ 1 / 2) := by
  refine ⟨api_50000_12_5_24, ?_, ?_, ?_⟩ <;>
    · rw [abs_of_pos (by norm_num)]
      norm_num

/-- Amended claim C2: on `principal=50000`, `rate=12.5`, `tenure=24` the
endpoint returns emi = 2365.37, total_amount = 56768.77, total_interest =
6768.77, which do not match the demo loan fixture (2347.50 / 45305.00). -/
theorem emi_50000_12_5_24_actual :
    calculate_emi_api ⟨some "50000", some "12.5", some "24"⟩ =
      Response.ok (.fin (236537 / 100)) (.fin (5676877 / 100)) (.fin (676877 / 100)) :=
  api_50000_12_5_24

/-- Claim C3 (code side): the `except (ValueError, TypeError)` clause of
`calculate_emi_api` does not catch `ZeroDivisionError` or `OverflowError`,
so those arithmetic faults escape the handler instead of becoming the
`InvalidParameterError` payload. -/
theorem except_clause_misses_arithmetic_faults :
    handled .zeroDivisionError = false ∧ handled .overflowError = false ∧
    handled .valueError = true ∧ handled .typeError = true ∧
    runHandler (.error .zeroDivisionError) = .uncaught .zeroDivisionError ∧
    runHandler (.error .overflowError) = .uncaught .overflowError :=
  ⟨rfl, rfl, rfl, rfl, rfl, rfl⟩

/-- Exact response on `principal=0.01`, `rate=12`, `tenure=12`: the rounded
emi is 0.00. -/
lemma api_001_12_12 :
    calculate_emi_api ⟨some "0.01", some "12", some "12"⟩ =
      Response.ok (.fin 0) (.fin (1 / 100)) (.fin 0) := by
  rw [@api_fin_pos "0.01" "12" "12" (0 + 1 / 10 ^ 2) 12 12 rfl rfl rfl
    (by norm_num) (by norm_num) (by norm_num)]
  have he : round2 (emi_raw (0 + 1 / 10 ^ 2) 12 12) = 0 := by
    rw [round2_eq_of_lt (m := 0)
      (by unfold emi_raw monthly_rate; norm_num)
      (by unfold emi_raw monthly_rate; norm_num)]
    norm_num
  have hta : round2 (total_amount_raw (0 + 1 / 10 ^ 2) 12 12) = 1 / 100 := by
    rw [round2_eq_of_lt (m := 1)
      (by unfold total_amount_raw emi_raw monthly_rate; norm_num)
      (by unfold total_amount_raw emi_raw monthly_rate; norm_num)]
    norm_num
  have hti : round2 (total_interest_raw (0 + 1 / 10 ^ 2) 12 12) = 0 := by
    rw [round2_eq_of_lt (m := 0)
      (by unfold total_interest_raw total_amount_raw emi_raw monthly_rate; norm_num)
      (by unfold total_interest_raw total_amount_raw emi_raw monthly_rate; norm_num)]
    norm_num
  rw [he, hta, hti]

/-- Counterexample for claim C4: on `principal=0.01`, `rate=12`,
`tenure=12` the returned (rounded) emi is 0.00, which is not `> 0`, and the
returned total_amount 0.01 is not `round(returned_emi * tenure, 2) = 0`. -/
theorem rounded_invariants_fail :
    calculate_emi_api ⟨some "0.01", some "12", some "12"⟩ =
      Response.ok (.fin 0) (.fin (1 / 100)) (.fin 0) ∧
    ¬(0 < (0 : ℚ)) ∧ round2 ((0 : ℚ) * 12) ≠ 1 / 100 := by
  refine ⟨api_001_12_12, by norm_num, ?_⟩
  rw [show ((0 : ℚ) * 12) = 0 by ring,
    round2_eq_of_lt (m := 0) (by norm_num) (by norm_num)]
  norm_num

/-- Amended claim C4: for positive parsed inputs the endpoint returns the
three values rounded from the *pre-rounding* quantities: the raw emi is
strictly positive (so the returned emi is ≥ 0 but can round to 0), the
returned total_amount is `round(raw_emi * tenure, 2)` and the returned
total_interest is `round(raw_emi * tenure - principal, 2)`; the claimed
equations in terms of the returned rounded emi fail in general. -/
theorem result_invariants_raw {sp sr sn : String} {p r : ℚ} {n : ℕ}
    (hp : pyFloat sp = some (.fin p)) (hr : pyFloat sr = some (.fin r))
    (hn : pyInt sn = some (n : ℤ)) (hp0 : 0 < p) (hr0 : 0 < r) (hn0 : 0 < n) :
    calculate_emi_api ⟨some sp, some sr, some sn⟩ =
      Response.ok (.fin (round2 (emi_raw p r n)))
                  (.fin (round2 (total_amount_raw p r n)))
                  (.fin (round2 (total_interest_raw p r n))) ∧
    0 < emi_raw p r n ∧ 0 ≤ round2 (emi_raw p r n) ∧
    round2 (total_amount_raw p r n) = round2 (emi_raw p r n * n) ∧
    round2 (total_interest_raw p r n) = round2 (emi_raw p r n * n - p) :=
  ⟨api_fin_pos hp hr hn hp0 hr0 hn0, emi_raw_pos hp0 hr0 hn0.ne',
    round2_nonneg (emi_raw_pos hp0 hr0 hn0.ne').le, rfl, rfl⟩

/-- Witness for the amended C4 at `principal=50000`, `rate=12.5`,
`tenure=24`. -/
theorem result_invariants_raw_witness :
    calculate_emi_api ⟨some "50000", some "12.5", some "24"⟩ =
      Response.ok (.fin (round2 (emi_raw 50000 (12 + 5 / 10 ^ 1) 24)))
                  (.fin (round2 (total_amount_raw 50000 (12 + 5 / 10 ^ 1) 24)))
                  (.fin (round2 (total_interest_raw 50000 (12 + 5 / 10 ^ 1) 24))) ∧
    0 < emi_raw 50000 (12 + 5 / 10 ^ 1) 24 ∧
    0 ≤ round2 (emi_raw 50000 (12 + 5 / 10 ^ 1) 24) ∧
    round2 (total_amount_raw 50000 (12 + 5 / 10 ^ 1) 24) =
      round2 (emi_raw 50000 (12 + 5 / 10 ^ 1) 24 * 24) ∧
    round2 (total_interest_raw 50000 (12 + 5 / 10 ^ 1) 24) =
      round2 (emi_raw 50000 (12 + 5 / 10 ^ 1) 24 * 24 - 50000) :=
  result_invariants_raw rfl rfl rfl (by norm_num) (by norm_num) (by norm_num)

/-- Exact response on `principal=1`, `rate=12`, `tenure=40`. -/
lemma api_1_12_40 :
    calculate_emi_api ⟨some "1", some "12", some "40"⟩ =
      Response.ok (.fin (3 / 100)) (.fin (122 / 100)) (.fin (22 / 100)) := by
  rw [@api_fin_pos "1" "12" "40" 1 12 40 rfl rfl rfl
    (by norm_num) (by norm_num) (by norm_num)]
  have he : round2 (emi_raw 1 12 40) = 3 / 100 := by
    rw [round2_eq_of_lt (m := 3)
      (by unfold emi_raw monthly_rate; norm_num)
      (by unfold emi_raw monthly_rate; norm_num)]
    norm_num
  have hta : round2 (total_amount_raw 1 12 40) = 122 / 100 := by
    rw [round2_eq_of_gt (m := 122)
      (by unfold total_amount_raw emi_raw monthly_rate; norm_num)
      (by unfold total_amount_raw emi_raw monthly_rate; norm_num)]
    norm_num
  have hti : round2 (total_interest_raw 1 12 40) = 22 / 100 := by
    rw [round2_eq_of_gt (m := 22)
      (by unfold total_interest_raw total_amount_raw emi_raw monthly_rate; norm_num)
      (by unfold total_interest_raw total_amount_raw emi_raw monthly_rate; norm_num)]
    norm_num
  rw [he, hta, hti]

/-- Exact response on `principal=1`, `rate=12`, `tenure=41`: identical to
the response for tenure 40. -/
lemma api_1_12_41 :
    calculate_emi_api ⟨some "1", some "12", some "41"⟩ =
      Response.ok (.fin (3 / 100)) (.fin (122 / 100)) (.fin (22 / 100)) := by
  rw [@api_fin_pos "1" "12" "41" 1 12 41 rfl rfl rfl
    (by norm_num) (by norm_num) (by norm_num)]
  have he : round2 (emi_raw 1 12 41) = 3 / 100 := by
    rw [round2_eq_of_gt (m := 3)
      (by unfold emi_raw monthly_rate; norm_num)
      (by unfold emi_raw monthly_rate; norm_num)]
    norm_num
  have hta : round2 (total_amount_raw 1 12 41) = 122 / 100 := by
    rw [round2_eq_of_lt (m := 122)
      (by unfold total_amount_raw emi_raw monthly_rate; norm_num)
      (by unfold total_amount_raw emi_raw monthly_rate; norm_num)]
    norm_num
  have hti : round2 (total_interest_raw 1 12 41) = 22 / 100 := by
    rw [round2_eq_of_lt (m := 22)
      (by unfold total_interest_raw total_amount_raw emi_raw monthly_rate; norm_num)
      (by unfold total_interest_raw total_amount_raw emi_raw monthly_rate; norm_num)]
    norm_num
  rw [he, hta, hti]

/-- Counterexample for claim C5: with `principal=1`, `rate=12` (a typical
rate) and tenures 40 < 41, the endpoint returns the same rounded emi 0.03
and the same rounded total_interest 0.22 for both tenures, so the returned
emi is not strictly smaller and the returned total_interest is not strictly
larger at the longer tenure. -/
theorem tenure_monotonicity_fails_after_rounding :
    calculate_emi_api ⟨some "1", some "12", some "40"⟩ =
      Response.ok (.fin (3 / 100)) (.fin (122 / 100)) (.fin (22 / 100)) ∧
    calculate_emi_api ⟨some "1", some "12", some "41"⟩ =
      Response.ok (.fin (3 / 100)) (.fin (122 / 100)) (.fin (22 / 100)) ∧
    ¬((3 / 100 : ℚ) < 3 / 100) ∧ ¬((22 / 100 : ℚ) < 22 / 100) :=
  ⟨api_1_12_40, api_1_12_41, by norm_num, by norm_num⟩

/-- Amended claim C5: the monotonicity holds for the pre-rounding values,
and for every positive rate: for fixed `p > 0` and `r > 0` and tenures
`1 ≤ n1 < n2`, the raw emi at `n2` is strictly smaller and the raw total
interest strictly larger; after rounding to 2 decimals strictness can be
lost. -/
theorem tenure_monotonicity_raw {p r : ℚ} (hp : 0 < p) (hr : 0 < r) {n1 n2 : ℕ}
    (h1 : 1 ≤ n1) (h12 : n1 < n2) :
    emi_raw p r n2 < emi_raw p r n1 ∧
    total_interest_raw p r n1 < total_interest_raw p r n2 := by
  have hn1 : n1 ≠ 0 := by omega
  have hn2 : n2 ≠ 0 := by omega
  have hS1 := annuity_pos hr hn1
  have hS2 := annuity_pos hr hn2
  have hlt := annuity_lt_annuity_tenure hr h12
  constructor
  · rw [emi_raw_eq_div_annuity p hr hn2, emi_raw_eq_div_annuity p hr hn1]
    exact div_lt_div_of_pos_left hp hS1 hlt
  · rw [total_interest_raw_eq p hr hn1, total_interest_raw_eq p hr hn2]
    have hx := one_plus_monthly_rate_pos hr
    have hq0 : 0 < (1 + monthly_rate r)⁻¹ := inv_pos.mpr hx
    have hq1 : (1 + monthly_rate r)⁻¹ < 1 :=
      inv_lt_one_of_one_lt₀ (by linarith [monthly_rate_pos hr])
    have key : (n1 : ℚ) * annuity r n2 < (n2 : ℚ) * annuity r n1 :=
      ratio_sum_ineq hq0 hq1 h1 h12
    have h2 : p / annuity r n1 * n1 < p / annuity r n2 * n2 := by
      rw [div_mul_eq_mul_div, div_mul_eq_mul_div, div_lt_div_iff₀ hS1 hS2]
      nlinarith [key, hp]
    linarith

/-- Witness for the amended C5 at `p=1`, `r=12`, `n1=1`, `n2=2`. -/
theorem tenure_monotonicity_raw_witness :
    emi_raw 1 12 2 < emi_raw 1 12 1 ∧
    total_interest_raw 1 12 1 < total_interest_raw 1 12 2 :=
  tenure_monotonicity_raw (by norm_num) (by norm_num) (by norm_num) (by norm_num)

/-- Exact response on `principal=0.01`, `rate=1`, `tenure=1`. -/
lemma api_001_1_1 :
    calculate_emi_api ⟨some "0.01", some "1", some "1"⟩ =
      Response.ok (.fin (1 / 100)) (.fin (1 / 100)) (.fin 0) := by
  rw [@api_fin_pos "0.01" "1" "1" (0 + 1 / 10 ^ 2) 1 1 rfl rfl rfl
    (by norm_num) (by norm_num) (by norm_num)]
  have he : round2 (emi_raw (0 + 1 / 10 ^ 2) 1 1) = 1 / 100 := by
    rw [round2_eq_of_lt (m := 1)
      (by unfold emi_raw monthly_rate; norm_num)
      (by unfold emi_raw monthly_rate; norm_num)]
    norm_num
  have hta : round2 (total_amount_raw (0 + 1 / 10 ^ 2) 1 1) = 1 / 100 := by
    rw [round2_eq_of_lt (m := 1)
      (by unfold total_amount_raw emi_raw monthly_rate; norm_num)
      (by unfold total_amount_raw emi_raw monthly_rate; norm_num)]
    norm_num
  have hti : round2 (total_interest_raw (0 + 1 / 10 ^ 2) 1 1) = 0 := by
    rw [round2_eq_of_lt (m := 0)
      (by unfold total_interest_raw total_amount_raw emi_raw monthly_rate; norm_num)
      (by unfold total_interest_raw total_amount_raw emi_raw monthly_rate; norm_num)]
    norm_num
  rw [he, hta, hti]

/-- Exact response on `principal=0.01`, `rate=2`, `tenure=1`: identical to
the response for rate 1. -/
lemma api_001_2_1 :
    calculate_emi_api ⟨some "0.01", some "2", some "1"⟩ =
      Response.ok (.fin (1 / 100)) (.fin (1 / 100)) (.fin 0) := by
  rw [@api_fin_pos "0.01" "2" "1" (0 + 1 / 10 ^ 2) 2 1 rfl rfl rfl
    (by norm_num) (by norm_num) (by norm_num)]
  have he : round2 (emi_raw (0 + 1 / 10 ^ 2) 2 1) = 1 / 100 := by
    rw [round2_eq_of_lt (m := 1)
      (by unfold emi_raw monthly_rate; norm_num)
      (by unfold emi_raw monthly_rate; norm_num)]
    norm_num
  have hta : round2 (total_amount_raw (0 + 1 / 10 ^ 2) 2 1) = 1 / 100 := by
    rw [round2_eq_of_lt (m := 1)
      (by unfold total_amount_raw emi_raw monthly_rate; norm_num)
      (by unfold total_amount_raw emi_raw monthly_rate; norm_num)]
    norm_num
  have hti : round2 (total_interest_raw (0 + 1 / 10 ^ 2) 2 1) = 0 := by
    rw [round2_eq_of_lt (m := 0)
      (by unfold total_interest_raw total_amount_raw emi_raw monthly_rate; norm_num)
      (by unfold total_interest_raw total_amount_raw emi_raw monthly_rate; norm_num)]
    norm_num
  rw [he, hta, hti]

/-- Counterexample for claim C6: with `principal=0.01`, `tenure=1` and
rates 1 < 2, the endpoint returns rounded emi 0.01 and rounded
total_interest 0.00 for both rates, so neither returned value is strictly
larger at the higher rate. -/
theorem rate_monotonicity_fails_after_rounding :
    calculate_emi_api ⟨some "0.01", some "1", some "1"⟩ =
      Response.ok (.fin (1 / 100)) (.fin (1 / 100)) (.fin 0) ∧
    calculate_emi_api ⟨some "0.01", some "2", some "1"⟩ =
      Response.ok (.fin (1 / 100)) (.fin (1 / 100)) (.fin 0) ∧
    ¬((1 / 100 : ℚ) < 1 / 100) ∧ ¬((0 : ℚ) < 0) :=
  ⟨api_001_1_1, api_001_2_1, by norm_num, by norm_num⟩

/-- Amended claim C6: the monotonicity in the rate holds for the
pre-rounding values: for fixed `p > 0` and tenure `n ≥ 1` and rates
`0 < r1 < r2`, the raw emi and the raw total interest at `r2` are strictly
larger; after rounding to 2 decimals strictness can be lost. -/
theorem rate_monotonicity_raw {p r1 r2 : ℚ} (hp : 0 < p) (hr1 : 0 < r1) (h12 : r1 < r2)
    {n : ℕ} (hn : 1 ≤ n) :
    emi_raw p r1 n < emi_raw p r2 n ∧
    total_interest_raw p r1 n < total_interest_raw p r2 n := by
  have hn0 : n ≠ 0 := by omega
  have hr2 : 0 < r2 := hr1.trans h12
  have hS1 := annuity_pos hr1 hn0
  have hS2 := annuity_pos hr2 hn0
  have hanti := annuity_anti_rate hr1 h12 hn0
  have hemi : emi_raw p r1 n < emi_raw p r2 n := by
    rw [emi_raw_eq_div_annuity p hr1 hn0, emi_raw_eq_div_annuity p hr2 hn0]
    exact div_lt_div_of_pos_left hp hS2 hanti
  refine ⟨hemi, ?_⟩
  unfold total_interest_raw total_amount_raw
  have hnq : (0 : ℚ) < (n : ℚ) := by exact_mod_cast Nat.pos_of_ne_zero hn0
  have := mul_lt_mul_of_pos_right hemi hnq
  linarith

/-- Witness for the amended C6 at `p=1`, `r1=1`, `r2=2`, `n=1`. -/
theorem rate_monotonicity_raw_witness :
    emi_raw 1 1 1 < emi_raw 1 2 1 ∧
    total_interest_raw 1 1 1 < total_interest_raw 1 2 1 :=
  rate_monotonicity_raw (by norm_num) (by norm_num) (by norm_num) (by norm_num)

lemma getFloatArg_error {o : Option String} {e : PyExc}
    (h : getFloatArg o = .error e) : e = .valueError := by
  cases o with
  | none => simp [getFloatArg] at h
  | some s =>
    simp only [getFloatArg] at h
    cases hpf : pyFloat s with
    | some v => rw [hpf] at h; simp at h
    | none =>
      rw [hpf] at h
      have h2 : (Except.error PyExc.valueError : Except PyExc PyFloat) = .error e := h
      injection h2 with h1
      exact h1.symm

lemma getIntArg_error {o : Option String} {e : PyExc}
    (h : getIntArg o = .error e) : e = .valueError := by
  cases o with
  | none => simp [getIntArg] at h
  | some s =>
    simp only [getIntArg] at h
    cases hpf : pyInt s with
    | some v => rw [hpf] at h; simp at h
    | none =>
      rw [hpf] at h
      have h2 : (Except.error PyExc.valueError : Except PyExc ℤ) = .error e := h
      injection h2 with h1
      exact h1.symm

/-- Claim C7: whenever the parsed principal, rate or tenure is zero or
negative, the endpoint returns the `Invalid parameters` JSON payload with
HTTP status 400 and never a numeric result; positivity is strict. -/
theorem nonpositive_params_rejected {sp sr sn : String} {p r : ℚ} {n : ℤ}
    (hp : pyFloat sp = some (.fin p)) (hr : pyFloat sr = some (.fin r))
    (hn : pyInt sn = some n) (h : p ≤ 0 ∨ r ≤ 0 ∨ n ≤ 0) :
    calculate_emi_api ⟨some sp, some sr, some sn⟩ =
      Response.error "Invalid parameters" 400 := by
  rw [calculate_emi_api_eq hp hr hn]
  unfold emiCompute
  have hg : (pyLeZero (.fin p) || pyLeZero (.fin r) || decide (n ≤ 0)) = true := by
    simp only [pyLeZero, Bool.or_eq_true, decide_eq_true_eq]
    tauto
  rw [hg, if_pos rfl]
  rfl

/-- Witness for C7 at `principal=0`, `rate=-1`, `tenure=0`. -/
theorem nonpositive_params_rejected_witness :
    calculate_emi_api ⟨some "0", some "-1", some "0"⟩ =
      Response.error "Invalid parameters" 400 :=
  nonpositive_params_rejected rfl rfl rfl (Or.inl (le_of_eq rfl))

/-- Claim C8: a request with any of the three query parameters absent sees
that parameter default to `0` (`float(0)` resp. `int(0)`), fails the
strict-positivity validation (or fails parsing of another parameter), and
receives an error payload with HTTP status 400 — never a numeric result. -/
theorem missing_params_default_zero_rejected (args : Args)
    (h : args.principal = none ∨ args.rate = none ∨ args.tenure = none) :
    getFloatArg none = .ok (.fin 0) ∧ getIntArg none = .ok 0 ∧
    ∃ msg, calculate_emi_api args = Response.error msg 400 := by
  refine ⟨rfl, rfl, ?_⟩
  obtain ⟨ap, ar, an⟩ := args
  unfold calculate_emi_api emiParse
  dsimp only at h ⊢
  rcases h with h | h | h
  · subst h
    rcases hR : getFloatArg ar with e | vr
    · obtain rfl := getFloatArg_error hR
      exact ⟨_, rfl⟩
    · rcases hN : getIntArg an with e | nv
      · obtain rfl := getIntArg_error hN
        exact ⟨_, rfl⟩
      · refine ⟨"Invalid parameters", ?_⟩
        simp [getFloatArg, emiCompute, pyLeZero, runHandler]
  · subst h
    rcases hP : getFloatArg ap with e | vp
    · obtain rfl := getFloatArg_error hP
      exact ⟨_, rfl⟩
    · rcases hN : getIntArg an with e | nv
      · obtain rfl := getIntArg_error hN
        exact ⟨_, rfl⟩
      · refine ⟨"Invalid parameters", ?_⟩
        simp [getFloatArg, emiCompute, pyLeZero, runHandler]
  · subst h
    rcases hP : getFloatArg ap with e | vp
    · obtain rfl := getFloatArg_error hP
      exact ⟨_, rfl⟩
    · rcases hR : getFloatArg ar with e | vr
      · obtain rfl := getFloatArg_error hR
        exact ⟨_, rfl⟩
      · refine ⟨"Invalid parameters", ?_⟩
        simp [getIntArg, emiCompute, pyLeZero, runHandler]

/-- Witness for C8 with the principal parameter absent. -/
theorem missing_params_default_zero_rejected_witness :
    getFloatArg none = .ok (.fin 0) ∧ getIntArg none = .ok 0 ∧
    ∃ msg, calculate_emi_api ⟨none, some "5", some "12"⟩ = Response.error msg 400 :=
  missing_params_default_zero_rejected ⟨none, some "5", some "12"⟩ (Or.inl rfl)

/-- Claim C9: if any present query parameter fails to parse (`float` for
principal/rate, `int` for tenure), the raised `ValueError` is caught and
the endpoint returns the `Invalid input parameters` payload with HTTP
status 400, before any computation. -/
theorem unparseable_params_rejected (args : Args)
    (h : (∃ s, args.principal = some s ∧ pyFloat s = none) ∨
         (∃ s, args.rate = some s ∧ pyFloat s = none) ∨
         (∃ s, args.tenure = some s ∧ pyInt s = none)) :
    calculate_emi_api args = Response.error "Invalid input parameters" 400 := by
  obtain ⟨ap, ar, an⟩ := args
  unfold calculate_emi_api emiParse
  dsimp only at h ⊢
  rcases h with ⟨s, hs, hps⟩ | ⟨s, hs, hps⟩ | ⟨s, hs, hps⟩
  · subst hs
    simp [getFloatArg, hps, runHandler, handled]
  · subst hs
    rcases hP : getFloatArg ap with e | vp
    · obtain rfl := getFloatArg_error hP
      rfl
    · simp [getFloatArg, hps, runHandler, handled]
  · subst hs
    rcases hP : getFloatArg ap with e | vp
    · obtain rfl := getFloatArg_error hP
      rfl
    · rcases hR : getFloatArg ar with e | vr
      · obtain rfl := getFloatArg_error hR
        rfl
      · simp [getIntArg, hps, runHandler, handled]

/-- Witness for C9 at `principal="abc"`. -/
theorem unparseable_params_rejected_witness :
    calculate_emi_api ⟨some "abc", some "5", some "12"⟩ =
      Response.error "Invalid input parameters" 400 :=
  unparseable_params_rejected ⟨some "abc", some "5", some "12"⟩ (Or.inl ⟨"abc", rfl, rfl⟩)

/-! ### Non-finite inputs that pass the validation guard -/

lemma pyPow_nan {m : ℕ} (hm : m ≠ 0) : pyPow .nan m = .nan := by
  simp [pyPow, hm]

lemma pyPow_inf {m : ℕ} (hm : m ≠ 0) : pyPow .inf m = .inf := by
  simp [pyPow, hm]

lemma pyDiv_not_zero {a b : PyFloat} (hb : b ≠ .fin 0) :
    pyDiv a b = .ok (pyDivAux a b) := by
  unfold pyDiv
  rw [if_neg hb]

/-- The computation step with a nan principal and a finite positive rate
returns nan in all three fields. -/
lemma emiCompute_nan_principal {r : ℚ} (hr : 0 < r) {n : ℕ} (hn : 0 < n) :
    emiCompute .nan (.fin r) (n : ℤ) = .ok (Response.ok .nan .nan .nan) := by
  have h1200 : (12 * 100 : ℚ) ≠ 0 := by norm_num
  have hfac : (1 : ℚ) < (1 + monthly_rate r) ^ n := one_lt_factor hr hn.ne'
  have hden : (1 + monthly_rate r) ^ n + -1 ≠ 0 := by
    rw [← sub_eq_add_neg]; exact ne_of_gt (by linarith)
  have hnz : (0 : ℤ) < (n : ℤ) := by exact_mod_cast hn
  have hguard : (pyLeZero .nan || pyLeZero (.fin r) || decide ((n : ℤ) ≤ 0)) = false := by
    simp [pyLeZero, not_le.mpr hr, not_le.mpr hnz]
  unfold emiCompute
  rw [hguard, if_neg Bool.false_ne_true, pyDiv_fin r h1200]
  dsimp only
  simp only [pyAdd, Int.toNat_natCast, pyPow_fin, pyMul, pySub, pyNeg]
  rw [pyDiv_not_zero (by simp [show monthly_rate r = r / (12 * 100) from rfl] at hden ⊢; exact hden)]
  rfl

/-- The computation step with an inf principal and a finite positive rate:
emi and total_amount are inf, total_interest is `inf - inf = nan`. -/
lemma emiCompute_inf_principal {r : ℚ} (hr : 0 < r) {n : ℕ} (hn : 0 < n) :
    emiCompute .inf (.fin r) (n : ℤ) = .ok (Response.ok .inf .inf .nan) := by
  have h1200 : (12 * 100 : ℚ) ≠ 0 := by norm_num
  have hmr : 0 < r / (12 * 100) := by positivity
  have hfac : (1 : ℚ) < (1 + monthly_rate r) ^ n := one_lt_factor hr hn.ne'
  have hfac0 : 0 < (1 + monthly_rate r) ^ n := by linarith
  have hden : 0 < (1 + monthly_rate r) ^ n + -1 := by
    rw [← sub_eq_add_neg]; linarith
  have hnz : (0 : ℤ) < (n : ℤ) := by exact_mod_cast hn
  have hnq : (0 : ℚ) < ((n : ℤ) : ℚ) := by exact_mod_cast hn
  have hguard : (pyLeZero .inf || pyLeZero (.fin r) || decide ((n : ℤ) ≤ 0)) = false := by
    simp [pyLeZero, not_le.mpr hr, not_le.mpr hnz]
  unfold emiCompute
  rw [hguard, if_neg Bool.false_ne_true, pyDiv_fin r h1200]
  dsimp only
  simp only [pyAdd, Int.toNat_natCast, pyPow_fin]
  rw [show monthly_rate r = r / (12 * 100) from rfl] at hfac0 hden
  rw [show pyMul (pyMul .inf (.fin (r / (12 * 100))))
        (.fin ((1 + r / (12 * 100)) ^ n)) = .inf by
      simp [pyMul, hmr, hfac0]]
  rw [show pySub (.fin ((1 + r / (12 * 100)) ^ n)) (.fin 1) =
        .fin ((1 + r / (12 * 100)) ^ n + -1) from rfl]
  rw [pyDiv_not_zero (by simp [ne_of_gt hden])]
  rw [show pyDivAux .inf (.fin ((1 + r / (12 * 100)) ^ n + -1)) = .inf by
      simp [pyDivAux, hden]]
  dsimp only
  rw [show pyMul .inf (.fin ((n : ℤ) : ℚ)) = .inf by simp [pyMul, hnq, hn.ne']]
  rfl

/-- The computation step with a nan rate: every arithmetic step propagates
nan, and nan is never the zero float, so all three results are nan. -/
lemma emiCompute_nan_rate {p : PyFloat} (hp : pyLeZero p = false) {n : ℕ} (hn : 0 < n) :
    emiCompute p .nan (n : ℤ) = .ok (Response.ok .nan .nan .nan) := by
  have hnz : (0 : ℤ) < (n : ℤ) := by exact_mod_cast hn
  have hguard : (pyLeZero p || pyLeZero .nan || decide ((n : ℤ) ≤ 0)) = false := by
    rw [hp]
    simp [pyLeZero, not_le.mpr hnz]
  unfold emiCompute
  rw [hguard, if_neg Bool.false_ne_true,
    pyDiv_not_zero (show (.fin (12 * 100) : PyFloat) ≠ .fin 0 by simp)]
  rw [show pyDivAux .nan (.fin (12 * 100)) = .nan from rfl]
  dsimp only
  rw [show pyAdd (.fin 1) .nan = .nan from rfl, Int.toNat_natCast, pyPow_nan hn.ne']
  rw [show pyMul (pyMul p .nan) .nan = .nan by cases p <;> rfl]
  rw [show pySub .nan (.fin 1) = .nan from rfl]
  rw [pyDiv_not_zero (show (.nan : PyFloat) ≠ .fin 0 by simp)]
  rw [show pyDivAux .nan .nan = .nan from rfl]
  dsimp only
  rw [show pyMul .nan (.fin ((n : ℤ) : ℚ)) = .nan from rfl]
  rw [show pySub .nan p = .nan by cases p <;> rfl]
  rfl

/-- The computation step with an inf rate and a finite positive principal:
the numerator and denominator are both inf, `inf / inf` is nan, and all
three results are nan. -/
lemma emiCompute_inf_rate {p : ℚ} (hp : 0 < p) {n : ℕ} (hn : 0 < n) :
    emiCompute (.fin p) .inf (n : ℤ) = .ok (Response.ok .nan .nan .nan) := by
  have hnz : (0 : ℤ) < (n : ℤ) := by exact_mod_cast hn
  have hguard : (pyLeZero (.fin p) || pyLeZero .inf || decide ((n : ℤ) ≤ 0)) = false := by
    simp [pyLeZero, not_le.mpr hp, not_le.mpr hnz]
  unfold emiCompute
  rw [hguard, if_neg Bool.false_ne_true,
    pyDiv_not_zero (show (.fin (12 * 100) : PyFloat) ≠ .fin 0 by simp)]
  rw [show pyDivAux .inf (.fin (12 * 100)) = .inf by simp [pyDivAux]]
  dsimp only
  rw [show pyAdd (.fin 1) .inf = .inf from rfl, Int.toNat_natCast, pyPow_inf hn.ne']
  rw [show pyMul (pyMul (.fin p) .inf) .inf = .inf by simp [pyMul, hp]]
  rw [show pySub .inf (.fin 1) = .inf from rfl]
  rw [pyDiv_not_zero (show (.inf : PyFloat) ≠ .fin 0 by simp)]
  rw [show pyDivAux .inf .inf = .nan from rfl]
  dsimp only
  rw [show pyMul .nan (.fin ((n : ℤ) : ℚ)) = .nan from rfl]
  rw [show pySub .nan (.fin p) = .nan from rfl]
  rfl

/-- Claim C10: `principal="nan"`, `principal="inf"` (and likewise for rate)
parse successfully, the validation guard `principal <= 0 or rate <= 0 or
tenure <= 0` evaluates to false on them, and the endpoint returns a 200
success response (`Response.ok`) containing non-finite values instead of
the validation error. -/
theorem nan_inf_inputs_pass_validation :
    pyLeZero .nan = false ∧ pyLeZero .inf = false ∧
    calculate_emi_api ⟨some "nan", some "12", some "12"⟩ = Response.ok .nan .nan .nan ∧
    calculate_emi_api ⟨some "inf", some "12", some "12"⟩ = Response.ok .inf .inf .nan ∧
    calculate_emi_api ⟨some "50000", some "nan", some "24"⟩ = Response.ok .nan .nan .nan ∧
    calculate_emi_api ⟨some "50000", some "inf", some "24"⟩ = Response.ok .nan .nan .nan := by
  refine ⟨rfl, rfl, ?_, ?_, ?_, ?_⟩
  · rw [@calculate_emi_api_eq "nan" "12" "12" .nan (.fin 12) ((12 : ℕ) : ℤ) rfl rfl rfl,
      @emiCompute_nan_principal 12 (by norm_num) 12 (by norm_num)]
    rfl
  · rw [@calculate_emi_api_eq "inf" "12" "12" .inf (.fin 12) ((12 : ℕ) : ℤ) rfl rfl rfl,
      @emiCompute_inf_principal 12 (by norm_num) 12 (by norm_num)]
    rfl
  · rw [@calculate_emi_api_eq "50000" "nan" "24" (.fin 50000) .nan ((24 : ℕ) : ℤ) rfl rfl rfl,
      @emiCompute_nan_rate (.fin 50000) (by decide) 24 (by norm_num)]
    rfl
  · rw [@calculate_emi_api_eq "50000" "inf" "24" (.fin 50000) .inf ((24 : ℕ) : ℤ) rfl rfl rfl,
      @emiCompute_inf_rate 50000 (by norm_num) 24 (by norm_num)]
    rfl
